import Mathlib

/-!
Shallow embedding of `src/main.rs` (wireframe-grid waveform renderer).

Conventions of the embedding:
* `f32` values are modelled as `ℚ` where the code is pure arithmetic on
  grid coordinates (exactly representable, executable), and as `ℝ` where the
  code uses transcendental functions (`sin`, `cos`, `tan`, `sqrt`).
* `u32` dimensions are modelled as `ℕ`.
* GPU-side effects (surface configuration, depth-texture creation, uniform
  uploads, error logging) are modelled as an explicit list of `Effect`
  values returned alongside the new state.
-/

namespace Waveform

/-! ## Grid mesh generator (`create_grid`, src/main.rs lines 387-442) -/

/-- `Vertex` from src/main.rs: one grid point, `position: [f32; 3]`. -/
structure Vertex where
  x : ℚ
  y : ℚ
  z : ℚ
  deriving DecidableEq

/-- The vertex pushed by both loop bodies of `create_grid`:
`x_pos = x * 2 / width - 1`, `y = 0`, `z_pos = z * 2 / depth - 1`. -/
def gridVertex (width depth x z : ℕ) : Vertex :=
  ⟨(x : ℚ) * 2 / (width : ℚ) - 1, 0, (z : ℚ) * 2 / (depth : ℚ) - 1⟩

/-- One horizontal row of `create_grid`: the inner `for x in 0..width` loop. -/
def hRow (width depth z : ℕ) : List Vertex :=
  (List.range width).map fun x => gridVertex width depth x z

/-- The two degenerate connector vertices pushed after a horizontal row when
`z < depth - 1` (src/main.rs lines 404-413). -/
def hConn (width depth z : ℕ) : List Vertex :=
  if z < depth - 1 then
    [⟨1, 0, (z : ℚ) * 2 / (depth : ℚ) - 1⟩,
     ⟨-1, 0, ((z + 1 : ℕ) : ℚ) * 2 / (depth : ℚ) - 1⟩]
  else []

/-- One vertical column of `create_grid`: the inner `for z in 0..depth` loop. -/
def vCol (width depth x : ℕ) : List Vertex :=
  (List.range depth).map fun z => gridVertex width depth x z

/-- The two degenerate connector vertices pushed after a vertical column when
`x < width - 1` (src/main.rs lines 429-438). -/
def vConn (width depth x : ℕ) : List Vertex :=
  if x < width - 1 then
    [⟨(x : ℚ) * 2 / (width : ℚ) - 1, 0, 1⟩,
     ⟨((x + 1 : ℕ) : ℚ) * 2 / (width : ℚ) - 1, 0, -1⟩]
  else []

/-- The horizontal pass of `create_grid`: `for z in 0..depth { row; connectors }`. -/
def gridHorizontal (width depth : ℕ) : List Vertex :=
  ((List.range depth).map fun z => hRow width depth z ++ hConn width depth z).flatten

/-- The vertical pass of `create_grid`: `for x in 0..width { column; connectors }`. -/
def gridVertical (width depth : ℕ) : List Vertex :=
  ((List.range width).map fun x => vCol width depth x ++ vConn width depth x).flatten

/-- The `vertex_count` counter of `create_grid`'s horizontal pass: `+1` per row
vertex, `+2` per connector pair. -/
def gridCountH (width depth : ℕ) : ℕ :=
  ((List.range depth).map fun z => width + if z < depth - 1 then 2 else 0).sum

/-- The `vertex_count` counter of `create_grid`'s vertical pass. -/
def gridCountV (width depth : ℕ) : ℕ :=
  ((List.range width).map fun x => depth + if x < width - 1 then 2 else 0).sum

/-- `create_grid(width, depth)` from src/main.rs: returns the vertex list and
the running `vertex_count`. -/
def create_grid (width depth : ℕ) : List Vertex × ℕ :=
  (gridHorizontal width depth ++ gridVertical width depth,
   gridCountH width depth + gridCountV width depth)

/-! ### Counting lemmas -/

lemma sum_map_range_const (n c : ℕ) : ((List.range n).map fun _ => c).sum = n * c := by
  induction n with
  | zero => simp
  | succ m ih =>
      rw [List.range_succ, List.map_append, List.sum_append]
      simp [ih, Nat.succ_mul]

lemma sum_map_range_body (c n : ℕ) :
    ((List.range n).map fun k => c + if k < n - 1 then 2 else 0).sum = n * c + (n - 1) * 2 := by
  cases n with
  | zero => simp
  | succ m =>
      rw [List.range_succ, List.map_append, List.sum_append]
      have hmap : ((List.range m).map fun k => c + if k < m + 1 - 1 then 2 else 0)
          = (List.range m).map fun _ => c + 2 := by
        apply List.map_congr_left
        intro k hk
        have hkm : k < m := List.mem_range.mp hk
        simp [hkm]
      rw [hmap, sum_map_range_const]
      simp [Nat.succ_mul]
      ring

lemma gridCountH_eq (width depth : ℕ) :
    gridCountH width depth = depth * width + (depth - 1) * 2 := by
  simpa [gridCountH] using sum_map_range_body width depth

lemma gridCountV_eq (width depth : ℕ) :
    gridCountV width depth = width * depth + (width - 1) * 2 := by
  simpa [gridCountV] using sum_map_range_body depth width

lemma length_hRow (width depth z : ℕ) : (hRow width depth z).length = width := by
  simp [hRow]

lemma length_hConn (width depth z : ℕ) :
    (hConn width depth z).length = if z < depth - 1 then 2 else 0 := by
  by_cases h : z < depth - 1 <;> simp [hConn, h]

lemma length_vCol (width depth x : ℕ) : (vCol width depth x).length = depth := by
  simp [vCol]

lemma length_vConn (width depth x : ℕ) :
    (vConn width depth x).length = if x < width - 1 then 2 else 0 := by
  by_cases h : x < width - 1 <;> simp [vConn, h]

lemma length_gridHorizontal (width depth : ℕ) :
    (gridHorizontal width depth).length = gridCountH width depth := by
  rw [gridHorizontal, List.length_flatten, List.map_map, gridCountH]
  congr 1
  apply List.map_congr_left
  intro z _
  simp [length_hRow, length_hConn]

lemma length_gridVertical (width depth : ℕ) :
    (gridVertical width depth).length = gridCountV width depth := by
  rw [gridVertical, List.length_flatten, List.map_map, gridCountV]
  congr 1
  apply List.map_congr_left
  intro x _
  simp [length_vCol, length_vConn]

/-- C1: for every pair of positive integers `W`, `D`, `create_grid W D` returns a
vertex count equal to `W*D + (D-1)*2 + W*D + (W-1)*2`, and a vertex list of
exactly that length. -/
theorem C1_grid_vertex_count (W D : ℕ) (hW : 0 < W) (hD : 0 < D) :
    (create_grid W D).2 = W * D + (D - 1) * 2 + W * D + (W - 1) * 2 ∧
    (create_grid W D).1.length = (create_grid W D).2 := by
  constructor
  · rw [create_grid]
    rw [gridCountH_eq, gridCountV_eq]
    ring
  · rw [create_grid]
    simp [List.length_append, length_gridHorizontal, length_gridVertical]

/-- C1 witness: at the default `W = 80`, `D = 60` the count is `9876` and the
vertex list has `9876` entries. -/
theorem C1_witness : (create_grid 80 60).2 = 9876 ∧ (create_grid 80 60).1.length = 9876 := by
  have h := C1_grid_vertex_count 80 60 (by norm_num) (by norm_num)
  refine ⟨h.1.trans (by norm_num), h.2.trans (h.1.trans (by norm_num))⟩

/-! ### Geometry lemmas for the grid -/

lemma coord_bounds (k n : ℕ) (hk : k ≤ n) (hn : 0 < n) :
    -1 ≤ (k : ℚ) * 2 / (n : ℚ) - 1 ∧ (k : ℚ) * 2 / (n : ℚ) - 1 ≤ 1 := by
  have hn' : (0 : ℚ) < (n : ℚ) := by exact_mod_cast hn
  have hk' : (k : ℚ) ≤ (n : ℚ) := by exact_mod_cast hk
  constructor
  · have h0 : (0 : ℚ) ≤ (k : ℚ) * 2 / (n : ℚ) := by positivity
    linarith
  · rw [sub_le_iff_le_add, div_le_iff₀ hn']
    linarith

lemma vertex_mem_bounds (W D : ℕ) (hW : 0 < W) (hD : 0 < D) (v : Vertex)
    (hv : v ∈ (create_grid W D).1) :
    v.y = 0 ∧ -1 ≤ v.x ∧ v.x ≤ 1 ∧ -1 ≤ v.z ∧ v.z ≤ 1 := by
  rw [create_grid] at hv
  simp only [List.mem_append, gridHorizontal, gridVertical, List.mem_flatten,
    List.mem_map, List.mem_range] at hv
  rcases hv with ⟨l, ⟨z, hz, rfl⟩, hvl⟩ | ⟨l, ⟨x, hx, rfl⟩, hvl⟩
  · rcases List.mem_append.mp hvl with hr | hc
    · simp only [hRow, List.mem_map, List.mem_range] at hr
      obtain ⟨x, hx, rfl⟩ := hr
      obtain ⟨h1, h2⟩ := coord_bounds x W hx.le hW
      obtain ⟨h3, h4⟩ := coord_bounds z D hz.le hD
      exact ⟨rfl, h1, h2, h3, h4⟩
    · rw [hConn] at hc
      by_cases hzd : z < D - 1
      · obtain ⟨h3, h4⟩ := coord_bounds z D hz.le hD
        obtain ⟨h5, h6⟩ := coord_bounds (z + 1) D (by omega) hD
        rw [if_pos hzd] at hc
        rcases List.mem_pair.mp hc with rfl | rfl
        · exact ⟨rfl, by norm_num, by norm_num, h3, h4⟩
        · exact ⟨rfl, by norm_num, by norm_num, h5, h6⟩
      · rw [if_neg hzd] at hc
        exact absurd hc (List.not_mem_nil v)
  · rcases List.mem_append.mp hvl with hr | hc
    · simp only [vCol, List.mem_map, List.mem_range] at hr
      obtain ⟨z, hz, rfl⟩ := hr
      obtain ⟨h1, h2⟩ := coord_bounds x W hx.le hW
      obtain ⟨h3, h4⟩ := coord_bounds z D hz.le hD
      exact ⟨rfl, h1, h2, h3, h4⟩
    · rw [vConn] at hc
      by_cases hxw : x < W - 1
      · obtain ⟨h1, h2⟩ := coord_bounds x W hx.le hW
        obtain ⟨h5, h6⟩ := coord_bounds (x + 1) W (by omega) hW
        rw [if_pos hxw] at hc
        rcases List.mem_pair.mp hc with rfl | rfl
        · exact ⟨rfl, h1, h2, by norm_num, by norm_num⟩
        · exact ⟨rfl, h5, h6, by norm_num, by norm_num⟩
      · rw [if_neg hxw] at hc
        exact absurd hc (List.not_mem_nil v)

lemma head?_hRow (W D z : ℕ) (hW : 0 < W) :
    (hRow W D z).head? = some ⟨-1, 0, (z : ℚ) * 2 / (D : ℚ) - 1⟩ := by
  obtain ⟨w, rfl⟩ := Nat.exists_eq_succ_of_ne_zero hW.ne'
  simp [hRow, List.range_succ_eq_map, gridVertex]

lemma getLast?_hRow (W D z : ℕ) (hW : 0 < W) :
    (hRow W D z).getLast? = some ⟨1 - 2 / (W : ℚ), 0, (z : ℚ) * 2 / (D : ℚ) - 1⟩ := by
  obtain ⟨w, rfl⟩ := Nat.exists_eq_succ_of_ne_zero hW.ne'
  rw [hRow, List.range_succ, List.map_append, List.map_cons, List.map_nil,
    List.getLast?_concat]
  have hne : ((w : ℚ) + 1) ≠ 0 := by positivity
  congr 1
  rw [gridVertex]
  congr 1
  push_cast
  field_simp
  ring

lemma head?_vCol (W D x : ℕ) (hD : 0 < D) :
    (vCol W D x).head? = some ⟨(x : ℚ) * 2 / (W : ℚ) - 1, 0, -1⟩ := by
  obtain ⟨d, rfl⟩ := Nat.exists_eq_succ_of_ne_zero hD.ne'
  simp [vCol, List.range_succ_eq_map, gridVertex]

lemma getLast?_vCol (W D x : ℕ) (hD : 0 < D) :
    (vCol W D x).getLast? = some ⟨(x : ℚ) * 2 / (W : ℚ) - 1, 0, 1 - 2 / (D : ℚ)⟩ := by
  obtain ⟨d, rfl⟩ := Nat.exists_eq_succ_of_ne_zero hD.ne'
  rw [vCol, List.range_succ, List.map_append, List.map_cons, List.map_nil,
    List.getLast?_concat]
  congr 1
  rw [gridVertex]
  congr 1
  push_cast
  field_simp
  ring

/-- C2 counterexample: for `W = 2`, `D = 2` the first horizontal row is the
first two output vertices, and its last vertex has `x = 0`, not `x = 1` as the
claim states. -/
theorem C2_counterexample :
    ((create_grid 2 2).1.take 2).getLast? = some ⟨0, 0, -1⟩ ∧ (0 : ℚ) ≠ 1 := by
  constructor
  · have h : (create_grid 2 2).1.take 2 = [⟨-1, 0, -1⟩, ⟨0, 0, -1⟩] := by
      norm_num [create_grid, gridHorizontal, gridVertical, hRow, hConn, vCol, vConn,
        gridVertex, List.range_succ]
    rw [h]
    rfl
  · norm_num

/-- C2 (amended): every vertex of `create_grid W D` has `y = 0` and `x`, `z`
in `[-1, 1]`; each of the `D` rows (at `z = -1 + 2*row/D`) has `W` vertices,
the first at `x = -1` and the last at `x = 1 - 2/W` (not `x = 1`; the `x = 1`
boundary is only reached by the following connector vertex), and symmetrically
each column's first vertex is at `z = -1` and its last at `z = 1 - 2/D`. -/
theorem C2_grid_geometry (W D : ℕ) (hW : 0 < W) (hD : 0 < D) :
    (∀ v ∈ (create_grid W D).1, v.y = 0 ∧ -1 ≤ v.x ∧ v.x ≤ 1 ∧ -1 ≤ v.z ∧ v.z ≤ 1) ∧
    (∀ z < D, (hRow W D z).length = W ∧
      (hRow W D z).head? = some ⟨-1, 0, (z : ℚ) * 2 / (D : ℚ) - 1⟩ ∧
      (hRow W D z).getLast? = some ⟨1 - 2 / (W : ℚ), 0, (z : ℚ) * 2 / (D : ℚ) - 1⟩) ∧
    (∀ x < W, (vCol W D x).length = D ∧
      (vCol W D x).head? = some ⟨(x : ℚ) * 2 / (W : ℚ) - 1, 0, -1⟩ ∧
      (vCol W D x).getLast? = some ⟨(x : ℚ) * 2 / (W : ℚ) - 1, 0, 1 - 2 / (D : ℚ)⟩) := by
  refine ⟨fun v hv => vertex_mem_bounds W D hW hD v hv, ?_, ?_⟩
  · intro z _
    exact ⟨length_hRow W D z, head?_hRow W D z hW, getLast?_hRow W D z hW⟩
  · intro x _
    exact ⟨length_vCol W D x, head?_vCol W D x hD, getLast?_vCol W D x hD⟩

/-- C2 witness: the amended statement instantiated at `W = 2`, `D = 2`. -/
theorem C2_witness :
    (0 < 2 ∧ 0 < 2) ∧
    ((∀ v ∈ (create_grid 2 2).1, v.y = 0 ∧ -1 ≤ v.x ∧ v.x ≤ 1 ∧ -1 ≤ v.z ∧ v.z ≤ 1) ∧
    (∀ z < 2, (hRow 2 2 z).length = 2 ∧
      (hRow 2 2 z).head? = some ⟨-1, 0, (z : ℚ) * 2 / (2 : ℚ) - 1⟩ ∧
      (hRow 2 2 z).getLast? = some ⟨1 - 2 / (2 : ℚ), 0, (z : ℚ) * 2 / (2 : ℚ) - 1⟩) ∧
    (∀ x < 2, (vCol 2 2 x).length = 2 ∧
      (vCol 2 2 x).head? = some ⟨(x : ℚ) * 2 / (2 : ℚ) - 1, 0, -1⟩ ∧
      (vCol 2 2 x).getLast? = some ⟨(x : ℚ) * 2 / (2 : ℚ) - 1, 0, 1 - 2 / (2 : ℚ)⟩)) := by
  refine ⟨⟨by norm_num, by norm_num⟩, ?_⟩
  have h := C2_grid_geometry 2 2 (by norm_num) (by norm_num)
  simpa using h

/-- C3 counterexample: for `W = 2`, `D = 2` the last vertex of the first row is
`⟨0, 0, -1⟩` (output index 1) while the first connector vertex that follows it
is `⟨1, 0, -1⟩` (output index 2); they are not equal, so the first connector is
not "a vertex equal to the last vertex of the current row". -/
theorem C3_counterexample :
    (create_grid 2 2).1[1]? = some ⟨0, 0, -1⟩ ∧
    (create_grid 2 2).1[2]? = some ⟨1, 0, -1⟩ ∧
    (⟨0, 0, -1⟩ : Vertex) ≠ ⟨1, 0, -1⟩ := by
  have h : (create_grid 2 2).1 =
      [⟨-1, 0, -1⟩, ⟨0, 0, -1⟩, ⟨1, 0, -1⟩, ⟨-1, 0, 0⟩, ⟨-1, 0, 0⟩, ⟨0, 0, 0⟩,
       ⟨-1, 0, -1⟩, ⟨-1, 0, 0⟩, ⟨-1, 0, 1⟩, ⟨0, 0, -1⟩, ⟨0, 0, -1⟩, ⟨0, 0, 0⟩] := by
    norm_num [create_grid, gridHorizontal, gridVertical, hRow, hConn, vCol, vConn,
      gridVertex, List.range_succ]
  refine ⟨by rw [h]; rfl, by rw [h]; rfl, ?_⟩
  intro hcontra
  have := congrArg Vertex.x hcontra
  norm_num at this

/-- C3 (amended): between consecutive rows the two connector vertices are,
first, the boundary vertex `(1, 0, z_row)` — sharing the current row's `z`
but lying at `x = 1`, one grid step beyond the row's last vertex — and second,
the vertex `(-1, 0, z_next)`, which equals the first vertex of the next row;
symmetrically for the vertical pass. -/
theorem C3_connectors (W D : ℕ) (hW : 0 < W) (hD : 0 < D) :
    (∀ z, z < D - 1 →
      hConn W D z = [⟨1, 0, (z : ℚ) * 2 / (D : ℚ) - 1⟩,
        ⟨-1, 0, ((z + 1 : ℕ) : ℚ) * 2 / (D : ℚ) - 1⟩] ∧
      (hRow W D (z + 1)).head? = some ⟨-1, 0, ((z + 1 : ℕ) : ℚ) * 2 / (D : ℚ) - 1⟩) ∧
    (∀ x, x < W - 1 →
      vConn W D x = [⟨(x : ℚ) * 2 / (W : ℚ) - 1, 0, 1⟩,
        ⟨((x + 1 : ℕ) : ℚ) * 2 / (W : ℚ) - 1, 0, -1⟩] ∧
      (vCol W D (x + 1)).head? = some ⟨((x + 1 : ℕ) : ℚ) * 2 / (W : ℚ) - 1, 0, -1⟩) := by
  constructor
  · intro z hz
    exact ⟨by rw [hConn, if_pos hz], head?_hRow W D (z + 1) hW⟩
  · intro x hx
    exact ⟨by rw [vConn, if_pos hx], head?_vCol W D (x + 1) hD⟩

/-- C3 witness: the amended statement instantiated at `W = 2`, `D = 2`. -/
theorem C3_witness :
    (0 < 2 ∧ 0 < 2) ∧
    ((∀ z, z < 2 - 1 →
      hConn 2 2 z = [⟨1, 0, (z : ℚ) * 2 / (2 : ℚ) - 1⟩,
        ⟨-1, 0, ((z + 1 : ℕ) : ℚ) * 2 / (2 : ℚ) - 1⟩] ∧
      (hRow 2 2 (z + 1)).head? = some ⟨-1, 0, ((z + 1 : ℕ) : ℚ) * 2 / (2 : ℚ) - 1⟩) ∧
    (∀ x, x < 2 - 1 →
      vConn 2 2 x = [⟨(x : ℚ) * 2 / (2 : ℚ) - 1, 0, 1⟩,
        ⟨((x + 1 : ℕ) : ℚ) * 2 / (2 : ℚ) - 1, 0, -1⟩] ∧
      (vCol 2 2 (x + 1)).head? = some ⟨((x + 1 : ℕ) : ℚ) * 2 / (2 : ℚ) - 1, 0, -1⟩)) :=
  ⟨⟨by norm_num, by norm_num⟩, C3_connectors 2 2 (by norm_num) (by norm_num)⟩

/-- C4: consecutive non-connector vertices of the same row differ by exactly
`2/W` in `x` and `0` in `y` and `z`; consecutive non-connector vertices of the
same column differ by exactly `2/D` in `z` and `0` in `x` and `y`. -/
theorem C4_consecutive_spacing (W D : ℕ) (hW : 0 < W) (hD : 0 < D) :
    (∀ z x, z < D → x + 1 < W →
      ∃ v₁ v₂, (hRow W D z)[x]? = some v₁ ∧ (hRow W D z)[x + 1]? = some v₂ ∧
        v₂.x - v₁.x = 2 / (W : ℚ) ∧ v₂.y = v₁.y ∧ v₂.z = v₁.z) ∧
    (∀ x z, x < W → z + 1 < D →
      ∃ v₁ v₂, (vCol W D x)[z]? = some v₁ ∧ (vCol W D x)[z + 1]? = some v₂ ∧
        v₂.z - v₁.z = 2 / (D : ℚ) ∧ v₂.y = v₁.y ∧ v₂.x = v₁.x) := by
  have hWne : (W : ℚ) ≠ 0 := Nat.cast_ne_zero.mpr hW.ne'
  have hDne : (D : ℚ) ≠ 0 := Nat.cast_ne_zero.mpr hD.ne'
  constructor
  · intro z x _ hx
    refine ⟨gridVertex W D x z, gridVertex W D (x + 1) z, ?_, ?_, ?_, rfl, rfl⟩
    · simp [hRow, List.getElem?_map, List.getElem?_range, Nat.lt_of_succ_lt hx]
    · simp [hRow, List.getElem?_map, List.getElem?_range, hx]
    · rw [gridVertex, gridVertex]
      push_cast
      field_simp
      ring
  · intro x z _ hz
    refine ⟨gridVertex W D x z, gridVertex W D x (z + 1), ?_, ?_, ?_, rfl, rfl⟩
    · simp [vCol, List.getElem?_map, List.getElem?_range, Nat.lt_of_succ_lt hz]
    · simp [vCol, List.getElem?_map, List.getElem?_range, hz]
    · rw [gridVertex, gridVertex]
      push_cast
      field_simp
      ring

/-- C4 witness: the statement instantiated at `W = 2`, `D = 2`. -/
theorem C4_witness :
    (0 < 2 ∧ 0 < 2) ∧
    ((∀ z x, z < 2 → x + 1 < 2 →
      ∃ v₁ v₂, (hRow 2 2 z)[x]? = some v₁ ∧ (hRow 2 2 z)[x + 1]? = some v₂ ∧
        v₂.x - v₁.x = 2 / (2 : ℚ) ∧ v₂.y = v₁.y ∧ v₂.z = v₁.z) ∧
    (∀ x z, x < 2 → z + 1 < 2 →
      ∃ v₁ v₂, (vCol 2 2 x)[z]? = some v₁ ∧ (vCol 2 2 x)[z + 1]? = some v₂ ∧
        v₂.z - v₁.z = 2 / (2 : ℚ) ∧ v₂.y = v₁.y ∧ v₂.x = v₁.x)) :=
  ⟨⟨by norm_num, by norm_num⟩, C4_consecutive_spacing 2 2 (by norm_num) (by norm_num)⟩

/-! ## Camera controller (`State::input`, src/main.rs lines 202-248) -/

/-- The virtual key codes `State::input` matches on; `other` stands for any
unrecognized key. -/
inductive Key where
  | w | s | a | d | q | e | other
  deriving DecidableEq

/-- Camera fields of `State`: `camera_position: Point3<f32>` and
`camera_rotation: f32` (yaw, radians). -/
structure Camera where
  x : ℝ
  y : ℝ
  z : ℝ
  yaw : ℝ

/-- `State::input` restricted to the fields it touches: for a key-press event
it mutates the camera exactly as the `match keycode` arms do, returning `true`
(event consumed); any other key returns `false` with no change. -/
noncomputable def Camera.input (c : Camera) (k : Key) : Camera × Bool :=
  match k with
  | .w => ({ c with z := c.z + 0.1 * Real.cos c.yaw, x := c.x + 0.1 * Real.sin c.yaw }, true)
  | .s => ({ c with z := c.z - 0.1 * Real.cos c.yaw, x := c.x - 0.1 * Real.sin c.yaw }, true)
  | .a => ({ c with yaw := c.yaw - 0.1 }, true)
  | .d => ({ c with yaw := c.yaw + 0.1 }, true)
  | .q => ({ c with y := c.y + 0.1 }, true)
  | .e => ({ c with y := c.y - 0.1 }, true)
  | .other => (c, false)

/-- Folding a sequence of key-press events through `State::input`. -/
noncomputable def applyKeys (c : Camera) (ks : List Key) : Camera :=
  ks.foldl (fun st k => (Camera.input st k).1) c

/-- Per-event yaw delta of a key (spec-side notion for superposition). -/
noncomputable def yawDelta : Key → ℝ
  | .a => -0.1
  | .d => 0.1
  | _ => 0

/-- Per-event `x` movement delta of a key, evaluated at a given yaw. -/
noncomputable def moveDeltaX (k : Key) (yaw : ℝ) : ℝ :=
  match k with
  | .w => 0.1 * Real.sin yaw
  | .s => -(0.1 * Real.sin yaw)
  | _ => 0

/-- Per-event `y` movement delta of a key (yaw-independent). -/
noncomputable def moveDeltaY : Key → ℝ
  | .q => 0.1
  | .e => -0.1
  | _ => 0

/-- Per-event `z` movement delta of a key, evaluated at a given yaw. -/
noncomputable def moveDeltaZ (k : Key) (yaw : ℝ) : ℝ :=
  match k with
  | .w => 0.1 * Real.cos yaw
  | .s => -(0.1 * Real.cos yaw)
  | _ => 0

/-- C5: each key-press applies exactly its stated delta with speed `0.1` and
rotation speed `0.1`; unrecognized keys change nothing and are not consumed;
forward from the initial camera `(0, 0.5, -5)`, yaw `0` gives `(0, 0.5, -4.9)`. -/
theorem C5_camera_input (c : Camera) :
    Camera.input c .w =
      ({ c with x := c.x + 0.1 * Real.sin c.yaw, z := c.z + 0.1 * Real.cos c.yaw }, true) ∧
    Camera.input c .s =
      ({ c with x := c.x - 0.1 * Real.sin c.yaw, z := c.z - 0.1 * Real.cos c.yaw }, true) ∧
    Camera.input c .a = ({ c with yaw := c.yaw - 0.1 }, true) ∧
    Camera.input c .d = ({ c with yaw := c.yaw + 0.1 }, true) ∧
    Camera.input c .q = ({ c with y := c.y + 0.1 }, true) ∧
    Camera.input c .e = ({ c with y := c.y - 0.1 }, true) ∧
    Camera.input c .other = (c, false) ∧
    Camera.input ⟨0, 0.5, -5, 0⟩ .w = (⟨0, 0.5, -4.9, 0⟩, true) := by
  refine ⟨rfl, rfl, rfl, rfl, rfl, rfl, rfl, ?_⟩
  simp only [Camera.input, Real.sin_zero, Real.cos_zero, Prod.mk.injEq, Camera.mk.injEq]
  norm_num

lemma applyKeys_cons (c : Camera) (k : Key) (ks : List Key) :
    applyKeys c (k :: ks) = applyKeys (Camera.input c k).1 ks := rfl

lemma input_step_decomp (c : Camera) (k : Key) :
    ((Camera.input c k).1).x = c.x + moveDeltaX k c.yaw ∧
    ((Camera.input c k).1).y = c.y + moveDeltaY k ∧
    ((Camera.input c k).1).z = c.z + moveDeltaZ k c.yaw ∧
    ((Camera.input c k).1).yaw = c.yaw + yawDelta k := by
  cases k <;> refine ⟨?_, ?_, ?_, ?_⟩ <;>
    simp [Camera.input, moveDeltaX, moveDeltaY, moveDeltaZ, yawDelta] <;> try ring

/-- C6: for any sequence of key events the final camera equals the initial one
plus the sum of per-event deltas, each movement delta evaluated at the yaw in
force when that event is processed; pressing yaw-right then forward from the
initial camera yields yaw `0.1`, `x + 0.1*sin 0.1` and `z + 0.1*cos 0.1`. -/
theorem C6_superposition (c : Camera) (ks : List Key) :
    (applyKeys c ks).yaw = c.yaw + (ks.map yawDelta).sum ∧
    (applyKeys c ks).x = c.x + ∑ i ∈ Finset.range ks.length,
      moveDeltaX (ks.getD i .other) (c.yaw + ((ks.take i).map yawDelta).sum) ∧
    (applyKeys c ks).y = c.y + ∑ i ∈ Finset.range ks.length,
      moveDeltaY (ks.getD i .other) ∧
    (applyKeys c ks).z = c.z + ∑ i ∈ Finset.range ks.length,
      moveDeltaZ (ks.getD i .other) (c.yaw + ((ks.take i).map yawDelta).sum) ∧
    applyKeys ⟨0, 0.5, -5, 0⟩ [.d, .w] =
      ⟨0.1 * Real.sin 0.1, 0.5, -5 + 0.1 * Real.cos 0.1, 0.1⟩ := by
  have main : ∀ (ks : List Key) (c : Camera),
      (applyKeys c ks).yaw = c.yaw + (ks.map yawDelta).sum ∧
      (applyKeys c ks).x = c.x + ∑ i ∈ Finset.range ks.length,
        moveDeltaX (ks.getD i .other) (c.yaw + ((ks.take i).map yawDelta).sum) ∧
      (applyKeys c ks).y = c.y + ∑ i ∈ Finset.range ks.length,
        moveDeltaY (ks.getD i .other) ∧
      (applyKeys c ks).z = c.z + ∑ i ∈ Finset.range ks.length,
        moveDeltaZ (ks.getD i .other) (c.yaw + ((ks.take i).map yawDelta).sum) := by
    intro ks
    induction ks with
    | nil => intro c; simp [applyKeys]
    | cons k ks ih =>
        intro c
        obtain ⟨hx, hy, hz, hyaw⟩ := input_step_decomp c k
        obtain ⟨ihyaw, ihx, ihy, ihz⟩ := ih (Camera.input c k).1
        rw [applyKeys_cons]
        refine ⟨?_, ?_, ?_, ?_⟩
        · rw [ihyaw, hyaw]
          simp [add_assoc]
        · rw [ihx, hx]
          rw [List.length_cons, Finset.sum_range_succ']
          simp only [List.getD_cons_succ, List.getD_cons_zero, List.take_succ_cons,
            List.take_zero, List.map_nil, List.sum_nil, add_zero, List.map_cons,
            List.sum_cons, hyaw, add_assoc]
          ring
        · rw [ihy, hy]
          rw [List.length_cons, Finset.sum_range_succ']
          simp only [List.getD_cons_succ, List.getD_cons_zero]
          ring
        · rw [ihz, hz]
          rw [List.length_cons, Finset.sum_range_succ']
          simp only [List.getD_cons_succ, List.getD_cons_zero, List.take_succ_cons,
            List.take_zero, List.map_nil, List.sum_nil, add_zero, List.map_cons,
            List.sum_cons, hyaw, add_assoc]
          ring
  obtain ⟨h1, h2, h3, h4⟩ := main ks c
  refine ⟨h1, h2, h3, h4, ?_⟩
  simp only [applyKeys, List.foldl_cons, List.foldl_nil, Camera.input, Camera.mk.injEq]
  norm_num

/-! ## View/projection math (cgmath `perspective` and `Matrix4::look_at_rh`),
uniforms, and the GPU-visible state -/

/-- 3-component vector over `ℝ` (cgmath `Vector3<f32>` / `Point3<f32>`). -/
structure Vec3 where
  x : ℝ
  y : ℝ
  z : ℝ

/-- Componentwise subtraction (cgmath `center - eye`). -/
def Vec3.sub (a b : Vec3) : Vec3 :=
  ⟨a.x - b.x, a.y - b.y, a.z - b.z⟩

/-- Dot product. -/
noncomputable def Vec3.dot (a b : Vec3) : ℝ :=
  a.x * b.x + a.y * b.y + a.z * b.z

/-- Cross product. -/
def Vec3.cross (a b : Vec3) : Vec3 :=
  ⟨a.y * b.z - a.z * b.y, a.z * b.x - a.x * b.z, a.x * b.y - a.y * b.x⟩

/-- cgmath `normalize`: divide by the magnitude `sqrt (v ⬝ v)`. -/
noncomputable def Vec3.normalize (v : Vec3) : Vec3 :=
  ⟨v.x / Real.sqrt (v.dot v), v.y / Real.sqrt (v.dot v), v.z / Real.sqrt (v.dot v)⟩

/-- cgmath `perspective(Deg(fovyDeg), aspect, near, far)` as a (row-major)
4×4 real matrix: `f = cot(fovy/2)` with `fovy` converted from degrees to
radians. -/
noncomputable def perspectiveMat (fovyDeg aspect near far : ℝ) :
    Matrix (Fin 4) (Fin 4) ℝ :=
  let f := (Real.tan (fovyDeg * (Real.pi / 180) / 2))⁻¹
  !![f / aspect, 0, 0, 0;
     0, f, 0, 0;
     0, 0, (far + near) / (near - far), 2 * far * near / (near - far);
     0, 0, -1, 0]

/-- cgmath `Matrix4::look_at_rh(eye, center, up)` as a (row-major) 4×4 real
matrix: `f = normalize(center - eye)`, `s = normalize(f × up)`, `u = s × f`. -/
noncomputable def lookAtRh (eye center up : Vec3) : Matrix (Fin 4) (Fin 4) ℝ :=
  let f := (center.sub eye).normalize
  let s := (f.cross up).normalize
  let u := s.cross f
  !![s.x, s.y, s.z, -(Vec3.dot eye s);
     u.x, u.y, u.z, -(Vec3.dot eye u);
     -f.x, -f.y, -f.z, Vec3.dot eye f;
     0, 0, 0, 1]

/-- `Uniforms` from src/main.rs: `time`, GPU-alignment padding, and the
view-projection matrix. -/
structure Uniforms where
  time : ℝ
  padding : ℝ × ℝ × ℝ
  view_proj : Matrix (Fin 4) (Fin 4) ℝ

/-- `Uniforms::new()`: time 0, zero padding, and a view-projection built from
the hard-coded `800.0 / 600.0` aspect and the fixed camera at `(0, 0.5, -5)`
looking at `(0, 0.5, 0)`. -/
noncomputable def Uniforms.new : Uniforms :=
  { time := 0
    padding := (0, 0, 0)
    view_proj := perspectiveMat 45 (800 / 600) 0.1 100 *
      lookAtRh ⟨0, 0.5, -5⟩ ⟨0, 0.5, 0⟩ ⟨0, 1, 0⟩ }

/-- `Uniforms::update(&mut self, time)`: overwrite only the time field. -/
noncomputable def Uniforms.update (u : Uniforms) (t : ℝ) : Uniforms :=
  { u with time := t }

/-- `winit::dpi::PhysicalSize<u32>`. -/
structure WindowSize where
  width : ℕ
  height : ℕ
  deriving DecidableEq

/-- `wgpu::SurfaceError` variants matched in `main`. -/
inductive SurfaceError where
  | lost | outOfMemory | timeout | outdated
  deriving DecidableEq

/-- Observable GPU/side effects issued by the state methods. -/
inductive Effect where
  | configureSurface (width height : ℕ)
  | createDepthTexture (width height : ℕ)
  | writeUniformBuffer (u : Uniforms)
  | logError (e : SurfaceError)

/-- The modelled fields of `State`: stored size, surface configuration
dimensions, depth-texture dimensions, animation time, the GPU uniform-buffer
contents, and the camera. -/
structure State where
  size : WindowSize
  configWidth : ℕ
  configHeight : ℕ
  depthTexture : WindowSize
  time : ℝ
  uniformBuf : Uniforms
  camera : Camera

/-- `State::resize` (src/main.rs lines 183-200): only when both dimensions are
positive, store the new size, reconfigure the surface, recreate the depth
texture, and write `Uniforms::new()` (with the current time) to the uniform
buffer; otherwise do nothing. -/
noncomputable def State.resize (st : State) (newSize : WindowSize) : State × List Effect :=
  if 0 < newSize.width ∧ 0 < newSize.height then
    let u := Uniforms.update Uniforms.new st.time
    ({ st with
        size := newSize
        configWidth := newSize.width
        configHeight := newSize.height
        depthTexture := ⟨newSize.width, newSize.height⟩
        uniformBuf := u },
     [Effect.configureSurface newSize.width newSize.height,
      Effect.createDepthTexture newSize.width newSize.height,
      Effect.writeUniformBuffer u])
  else (st, [])

/-- The view-projection matrix `State::update` computes: perspective with 45°
fov, the given aspect, near 0.1, far 100, times a look-at from the camera
position towards `position + (sin yaw, 0, cos yaw)`. -/
noncomputable def viewProjOf (c : Camera) (aspect : ℝ) : Matrix (Fin 4) (Fin 4) ℝ :=
  perspectiveMat 45 aspect 0.1 100 *
    lookAtRh ⟨c.x, c.y, c.z⟩ ⟨c.x + Real.sin c.yaw, c.y, c.z + Real.cos c.yaw⟩ ⟨0, 1, 0⟩

/-- `State::update` (src/main.rs lines 250-278): advance time by `1/60`,
rebuild the uniforms from the current camera and the stored size's aspect
ratio, and write them to the uniform buffer. -/
noncomputable def State.update (st : State) : State × List Effect :=
  let t := st.time + 1 / 60
  let u : Uniforms :=
    { Uniforms.new with
        time := t
        view_proj := viewProjOf st.camera ((st.size.width : ℝ) / (st.size.height : ℝ)) }
  ({ st with time := t, uniformBuf := u }, [Effect.writeUniformBuffer u])

/-- Loop control after a frame (winit `ControlFlow`): keep running or exit. -/
inductive Flow where
  | cont | halt
  deriving DecidableEq

/-- The result of `State::render`: success or a surface-acquisition error. -/
inductive RenderOutcome where
  | ok
  | err (e : SurfaceError)

/-- The dispatch on `state.render()`'s result in `main` (src/main.rs lines
373-378): `Ok` does nothing, `Lost` reconfigures via `resize(state.size)`,
`OutOfMemory` exits the loop, anything else is logged and the frame skipped. -/
noncomputable def handleRender (st : State) (r : RenderOutcome) : State × Flow × List Effect :=
  match r with
  | .ok => (st, .cont, [])
  | .err .lost =>
      let p := st.resize st.size
      (p.1, .cont, p.2)
  | .err .outOfMemory => (st, .halt, [])
  | .err e => (st, .cont, [Effect.logError e])

/-- The state right after `State::new` (src/main.rs lines 64-181): an 800×600
window, time 0, `Uniforms::new()` uploaded, camera at `(0, 0.5, -5)` with yaw
0. -/
noncomputable def initialState : State :=
  { size := ⟨800, 600⟩
    configWidth := 800
    configHeight := 600
    depthTexture := ⟨800, 600⟩
    time := 0
    uniformBuf := Uniforms.new
    camera := ⟨0, 0.5, -5, 0⟩ }

/-- C7: resizing to a size with a zero dimension is a complete no-op: the
state is unchanged and no effect (surface reconfiguration, depth-texture
recreation, uniform write) is issued. -/
theorem C7_resize_zero_noop (st : State) (n : WindowSize)
    (h : n.width = 0 ∨ n.height = 0) :
    State.resize st n = (st, []) := by
  have hneg : ¬(0 < n.width ∧ 0 < n.height) := by
    rcases h with h | h <;> simp [h]
  simp [State.resize, hneg]

/-- C7 witness: resizing the initial state to `0 × 600` changes nothing. -/
theorem C7_witness :
    ((⟨0, 600⟩ : WindowSize).width = 0 ∨ (⟨0, 600⟩ : WindowSize).height = 0) ∧
    State.resize initialState ⟨0, 600⟩ = (initialState, []) :=
  ⟨Or.inl rfl, C7_resize_zero_noop initialState ⟨0, 600⟩ (Or.inl rfl)⟩

/-- C9: the per-frame render-result dispatch: success does nothing, a lost
surface is reconfigured at the current stored size and the loop continues,
out-of-memory exits the loop with no other change, and any other error is
logged and the frame skipped with no state change. -/
theorem C9_render_dispatch (st : State) (hw : 0 < st.size.width) (hh : 0 < st.size.height) :
    handleRender st .ok = (st, .cont, []) ∧
    (handleRender st (.err .lost)).2.1 = .cont ∧
    (handleRender st (.err .lost)).2.2 =
      [Effect.configureSurface st.size.width st.size.height,
       Effect.createDepthTexture st.size.width st.size.height,
       Effect.writeUniformBuffer (Uniforms.update Uniforms.new st.time)] ∧
    (handleRender st (.err .lost)).1.size = st.size ∧
    handleRender st (.err .outOfMemory) = (st, .halt, []) ∧
    handleRender st (.err .timeout) = (st, .cont, [Effect.logError .timeout]) ∧
    handleRender st (.err .outdated) = (st, .cont, [Effect.logError .outdated]) := by
  refine ⟨rfl, rfl, ?_, ?_, rfl, rfl, rfl⟩ <;>
    simp [handleRender, State.resize, hw, hh]

/-- C9 witness: the dispatch instantiated at the initial state. -/
theorem C9_witness :
    (0 < initialState.size.width ∧ 0 < initialState.size.height) ∧
    (handleRender initialState .ok = (initialState, .cont, []) ∧
    (handleRender initialState (.err .lost)).2.1 = .cont ∧
    (handleRender initialState (.err .lost)).2.2 =
      [Effect.configureSurface initialState.size.width initialState.size.height,
       Effect.createDepthTexture initialState.size.width initialState.size.height,
       Effect.writeUniformBuffer (Uniforms.update Uniforms.new initialState.time)] ∧
    (handleRender initialState (.err .lost)).1.size = initialState.size ∧
    handleRender initialState (.err .outOfMemory) = (initialState, .halt, []) ∧
    handleRender initialState (.err .timeout) =
      (initialState, .cont, [Effect.logError .timeout]) ∧
    handleRender initialState (.err .outdated) =
      (initialState, .cont, [Effect.logError .outdated])) :=
  ⟨⟨by norm_num [initialState], by norm_num [initialState]⟩,
   C9_render_dispatch initialState (by norm_num [initialState]) (by norm_num [initialState])⟩

/-- C10: a resize with positive dimensions writes a uniform carrying the
current time but the view-projection matrix of `Uniforms::new` — fixed initial
camera and fixed 800/600 aspect — independent of the current camera and of the
new dimensions; the camera-correct matrix returns with the next `update`. -/
theorem C10_resize_uniform (st : State) (n : WindowSize)
    (hw : 0 < n.width) (hh : 0 < n.height) :
    (State.resize st n).1.uniformBuf =
      { time := st.time, padding := (0, 0, 0), view_proj := Uniforms.new.view_proj } ∧
    (State.resize st n).2 =
      [Effect.configureSurface n.width n.height,
       Effect.createDepthTexture n.width n.height,
       Effect.writeUniformBuffer ((State.resize st n).1.uniformBuf)] ∧
    (State.update (State.resize st n).1).1.uniformBuf.view_proj =
      viewProjOf st.camera ((n.width : ℝ) / (n.height : ℝ)) := by
  refine ⟨?_, ?_, ?_⟩ <;>
    simp [State.resize, State.update, Uniforms.update, Uniforms.new, hw, hh]

/-- C10 witness: the statement instantiated at the initial state resized to
`1024 × 768`. -/
theorem C10_witness :
    (0 < (⟨1024, 768⟩ : WindowSize).width ∧ 0 < (⟨1024, 768⟩ : WindowSize).height) ∧
    ((State.resize initialState ⟨1024, 768⟩).1.uniformBuf =
      { time := initialState.time, padding := (0, 0, 0),
        view_proj := Uniforms.new.view_proj } ∧
    (State.resize initialState ⟨1024, 768⟩).2 =
      [Effect.configureSurface (⟨1024, 768⟩ : WindowSize).width (⟨1024, 768⟩ : WindowSize).height,
       Effect.createDepthTexture (⟨1024, 768⟩ : WindowSize).width (⟨1024, 768⟩ : WindowSize).height,
       Effect.writeUniformBuffer ((State.resize initialState ⟨1024, 768⟩).1.uniformBuf)] ∧
    (State.update (State.resize initialState ⟨1024, 768⟩).1).1.uniformBuf.view_proj =
      viewProjOf initialState.camera
        (((⟨1024, 768⟩ : WindowSize).width : ℝ) / ((⟨1024, 768⟩ : WindowSize).height : ℝ))) :=
  ⟨⟨by norm_num, by norm_num⟩,
   C10_resize_uniform initialState ⟨1024, 768⟩ (by norm_num) (by norm_num)⟩

/-! ### C8: the aspect ratio actually used by the resize-time uniform write -/

lemma PV00 (fov a near far : ℝ) (V : Matrix (Fin 4) (Fin 4) ℝ) :
    (perspectiveMat fov a near far * V) 0 0 =
      (Real.tan (fov * (Real.pi / 180) / 2))⁻¹ / a * V 0 0 := by
  simp [perspectiveMat, Matrix.mul_apply, Fin.sum_univ_four]

lemma lookAt00 (eye center : Vec3) (l : ℝ) (hl : 0 < l)
    (h : center.sub eye = ⟨0, 0, l⟩) :
    lookAtRh eye center ⟨0, 1, 0⟩ 0 0 = -1 := by
  have hss : Real.sqrt (l * l) = l := Real.sqrt_mul_self hl.le
  have hf : (center.sub eye).normalize = ⟨0, 0, 1⟩ := by
    rw [h]
    simp [Vec3.normalize, Vec3.dot, hss, div_self hl.ne']
  have hs : ((⟨0, 0, 1⟩ : Vec3).cross ⟨0, 1, 0⟩).normalize = ⟨-1, 0, 0⟩ := by
    have hcr : (⟨0, 0, 1⟩ : Vec3).cross ⟨0, 1, 0⟩ = ⟨-1, 0, 0⟩ := by
      simp [Vec3.cross]
    rw [hcr]
    simp [Vec3.normalize, Vec3.dot]
  simp only [lookAtRh, hf, hs]
  simp

/-- C8: the code violates the claim at a concrete input. Resizing the initial
state to `800 × 800` writes the `Uniforms::new` view-projection matrix, built
with the stale hard-coded `800/600` aspect, and that matrix differs from the
one built with the now-current aspect `800/800` and the current camera — the
resize-time uniform write does not use the latest width/height. -/
theorem C8_resize_stale_aspect :
    (State.resize initialState ⟨800, 800⟩).2 =
      [Effect.configureSurface 800 800, Effect.createDepthTexture 800 800,
       Effect.writeUniformBuffer ((State.resize initialState ⟨800, 800⟩).1.uniformBuf)] ∧
    (State.resize initialState ⟨800, 800⟩).1.uniformBuf.view_proj = Uniforms.new.view_proj ∧
    Uniforms.new.view_proj ≠ viewProjOf initialState.camera ((800 : ℝ) / 800) := by
  refine ⟨by simp [State.resize], by simp [State.resize, Uniforms.update], ?_⟩
  intro hcontra
  have h00 : Uniforms.new.view_proj 0 0 =
      viewProjOf initialState.camera ((800 : ℝ) / 800) 0 0 := by rw [hcontra]
  have hVA : lookAtRh ⟨0, 0.5, -5⟩ ⟨0, 0.5, 0⟩ ⟨0, 1, 0⟩ 0 0 = -1 := by
    refine lookAt00 _ _ 5 (by norm_num) ?_
    simp [Vec3.sub]
  have hVB : lookAtRh ⟨(0:ℝ), 0.5, -5⟩ ⟨0 + Real.sin 0, 0.5, -5 + Real.cos 0⟩ ⟨0, 1, 0⟩ 0 0
      = -1 := by
    refine lookAt00 _ _ 1 (by norm_num) ?_
    simp [Vec3.sub, Real.sin_zero, Real.cos_zero]
  have hA : Uniforms.new.view_proj 0 0 =
      (Real.tan ((45 : ℝ) * (Real.pi / 180) / 2))⁻¹ / (800 / 600) * (-1) := by
    rw [show Uniforms.new.view_proj = perspectiveMat 45 (800 / 600) 0.1 100 *
      lookAtRh ⟨0, 0.5, -5⟩ ⟨0, 0.5, 0⟩ ⟨0, 1, 0⟩ from rfl, PV00, hVA]
  have hB : viewProjOf initialState.camera ((800 : ℝ) / 800) 0 0 =
      (Real.tan ((45 : ℝ) * (Real.pi / 180) / 2))⁻¹ / (800 / 800) * (-1) := by
    rw [show viewProjOf initialState.camera ((800 : ℝ) / 800) =
      perspectiveMat 45 ((800 : ℝ) / 800) 0.1 100 *
        lookAtRh ⟨(0:ℝ), 0.5, -5⟩ ⟨0 + Real.sin 0, 0.5, -5 + Real.cos 0⟩ ⟨0, 1, 0⟩ from rfl,
      PV00, hVB]
  have hang : (45 : ℝ) * (Real.pi / 180) / 2 = Real.pi / 8 := by ring
  have htan : 0 < Real.tan (Real.pi / 8) :=
    Real.tan_pos_of_pos_of_lt_pi_div_two (by positivity) (by linarith [Real.pi_pos])
  have hfinv : 0 < (Real.tan (Real.pi / 8))⁻¹ := inv_pos.mpr htan
  rw [hA, hB, hang] at h00
  have h00n : (Real.tan (Real.pi / 8))⁻¹ * (3 / 4) = (Real.tan (Real.pi / 8))⁻¹ := by
    field_simp at h00
    linarith
  linarith

end Waveform
